import Mathlib

/-!
Verification of the ShadowAgents agent framework (Go) against its
natural-language specification.

The development shallowly embeds the core of `ShadowAgents/dsl.go`
(and the matching `src/unnamed/part_002` / `part_003` variants):

* the JSON-ish dynamic values (`map[string]any`) exchanged with tools,
* the Gemini-style response model (candidates / content / parts),
* the schema generator `generateSchemaFromStruct`,
* the tool registry (`Agent.RegisterTools`, a Go `map[string]Tool`,
  modelled as an association list with overwrite-on-insert),
* the conversation loop `Agent.Run` (the unbounded Go `for` loop is
  modelled with an explicit fuel argument; running out of fuel is the
  `LoopResult.outOfFuel` outcome, distinct from the Go function's own
  `Done`/`Failed` terminations),
* the sub-agent wrapper `NewSubAgentTool`.

Error message strings follow the Go `fmt.Errorf` format strings
(punctuation such as quote characters around `%s` is elided).
-/

namespace ShadowAgents

/-- Dynamic JSON-like values standing for Go `any` in the
`map[string]any` argument and result maps.  Only the variants the
engine ever inspects are distinguished; everything the engine treats
opaquely can be represented by any constructor. -/
inductive JValue where
  | str (s : String)
  | int (n : Int)
  | boolV (b : Bool)
  | null
deriving Repr, DecidableEq

/-- Go `map[string]any`, as an association list. -/
abbrev Args : Type := List (String × JValue)

/-- Lookup in an association list modelling a Go `map[string]K`. -/
def alistLookup {α : Type} : List (String × α) → String → Option α
  | [], _ => none
  | (k, v) :: rest, key => if k = key then some v else alistLookup rest key

/-- Go map assignment `m[k] = v`: overwrite the existing entry for `k`
in place, or append a new entry.  A Go map is unordered, so only the
lookup/membership structure of the resulting association list
reflects the program; the list's internal order is a representation
artifact and is never read as program behavior (theorems about maps
are stated via `alistLookup`, membership, permutation, or sorted key
order). -/
def alistInsert {α : Type} : List (String × α) → String → α → List (String × α)
  | [], key, v => [(key, v)]
  | (k, w) :: rest, key, v =>
      if k = key then (key, v) :: rest else (k, w) :: alistInsert rest key v

/-- The `Type` field of a `genai.Schema` / `vtx.Schema`. -/
inductive SchemaType where
  | object
  | string
  | integer
  | number
  | boolean
deriving Repr, DecidableEq

/-- `genai.Schema`: recursive object schema.  `properties` is a Go
`map[string]*genai.Schema` — an UNORDERED map — modelled as an
association list whose internal order is a representation artifact,
read only through lookup/membership/permutation (`marshalKeyOrder`
gives the one deterministic order the marshaled map exhibits);
`required` is a Go slice, whose order is real program behavior. -/
inductive GSchema where
  | mk (type : SchemaType) (description : String)
      (properties : List (String × GSchema)) (required : List String)
deriving Repr

/-- The `Type` component of a schema. -/
def GSchema.schemaType : GSchema → SchemaType
  | .mk t _ _ _ => t

/-- The `Description` component of a schema. -/
def GSchema.descriptionOf : GSchema → String
  | .mk _ d _ _ => d

/-- The `Properties` component of a schema. -/
def GSchema.properties : GSchema → List (String × GSchema)
  | .mk _ _ p _ => p

/-- The `Required` component of a schema. -/
def GSchema.required : GSchema → List String
  | .mk _ _ _ r => r

/-- `genai.FunctionDeclaration`. -/
structure FunctionDeclaration where
  name : String
  description : String
  parameters : Option GSchema
deriving Repr

/-! ## The schema generator (`generateSchemaFromStruct`) -/

/-- The subset of `reflect.Kind` values distinguished by the `switch`
in `generateSchemaFromStruct`. -/
inductive GoKind where
  | stringK
  | intK | int8K | int16K | int32K | int64K
  | float32K | float64K
  | boolK
  | otherK
deriving Repr, DecidableEq

/-- The `switch field.Type.Kind()` in `generateSchemaFromStruct`:
`none` is the `default:` branch (unsupported type). -/
def goKindToType : GoKind → Option SchemaType
  | .stringK => some .string
  | .intK => some .integer
  | .int8K => some .integer
  | .int16K => some .integer
  | .int32K => some .integer
  | .int64K => some .integer
  | .float32K => some .number
  | .float64K => some .number
  | .boolK => some .boolean
  | .otherK => none

/-- One field of the reflected struct type: the Go field name, the
`json` tag, the `description` tag, and the field's reflect kind. -/
structure StructField where
  name : String
  jsonTag : String
  descriptionTag : String
  kind : GoKind
deriving Repr, DecidableEq

/-- `strings.Split(s, sep)` for a one-character separator `sep`, on
the underlying character list: split at every occurrence of the
separator, keeping empty segments. -/
def splitCharList (sep : Char) : List Char → List (List Char)
  | [] => [[]]
  | c :: cs =>
      match splitCharList sep cs with
      | [] => [[c]]
      | r :: rs => if c = sep then [] :: r :: rs else (c :: r) :: rs

/-- `strings.Split(s, ",")` (the separator in the source is the
one-character string `","`). -/
def goSplitComma (s : String) : List String :=
  (splitCharList ',' s.data).map fun l => ⟨l⟩

/-- `field.Tag.Get("json") == "" || jsonTag == "-"`: the field is
skipped entirely. -/
def StructField.skipped (f : StructField) : Prop :=
  f.jsonTag = "" ∨ f.jsonTag = "-"

instance (f : StructField) : Decidable f.skipped := by
  unfold StructField.skipped
  infer_instance

/-- `parts := strings.Split(jsonTag, ","); propName := parts[0]`
(the split of any string is nonempty, so `headD` never falls back). -/
def StructField.propName (f : StructField) : String :=
  (goSplitComma f.jsonTag).headD ""

/-- The `omitempty` scan over `parts[1:]` (the Go loop breaks at the
first hit, which is exactly membership). -/
def StructField.isOptional (f : StructField) : Prop :=
  "omitempty" ∈ (goSplitComma f.jsonTag).drop 1

instance (f : StructField) : Decidable f.isOptional := by
  unfold StructField.isOptional
  infer_instance

/-- The field loop of `generateSchemaFromStruct`, with the
`properties` map and `required` slice as accumulators.  Mirrors the Go
loop: skip untagged / `-` fields; compute `propName` and optionality;
extend `required` when the field is not optional (in the Go source
this happens just before the kind `switch`; on the `default` branch
the whole result is discarded, so the order is immaterial); abort
with the `unsupported type` error on the `default` branch. -/
def genLoop : List StructField → List (String × GSchema) → List String →
    Except String (List (String × GSchema) × List String)
  | [], props, req => .ok (props, req)
  | f :: fs, props, req =>
      if f.skipped then genLoop fs props req
      else
        match goKindToType f.kind with
        | none => .error ("unsupported type for field " ++ f.name)
        | some t =>
            genLoop fs
              (alistInsert props f.propName (GSchema.mk t f.descriptionTag [] []))
              (if f.isOptional then req else req ++ [f.propName])

/-- `generateSchemaFromStruct`: builds the object schema from the
struct's fields (in declaration order). -/
def generateSchemaFromStruct (fields : List StructField) : Except String GSchema :=
  match genLoop fields [] [] with
  | .error e => .error e
  | .ok (props, req) => .ok (GSchema.mk .object "" props req)

/-- The wire names of the fields that are not skipped, in declaration
order. -/
def includedWireNames (fields : List StructField) : List String :=
  fields.filterMap fun f => if f.skipped then none else some f.propName

/-! ## The response model and the conversation loop (`Agent.Run`) -/

/-- A `genai.Part` of a model response: the engine distinguishes
`genai.Text`, `genai.FunctionCall` and `genai.FunctionResponse` by
runtime type assertion (any other part kind is simply never matched,
so these three constructors cover the observable behavior). -/
inductive Part where
  | text (s : String)
  | functionCall (name : String) (args : Args)
  | functionResponsePart (name : String) (response : Args)
deriving Repr, DecidableEq

/-- `genai.Content`: the parts of one candidate. -/
structure Content where
  parts : List Part
deriving Repr, DecidableEq

/-- `genai.Candidate`: `Content` is a nilable pointer. -/
structure Candidate where
  content : Option Content
deriving Repr, DecidableEq

/-- `genai.GenerateContentResponse` (a nil `Candidates` slice and an
empty one are indistinguishable to the engine, so both are `[]`). -/
structure GenerateContentResponse where
  candidates : List Candidate
deriving Repr, DecidableEq

/-- Builds the usual single-candidate response from a list of parts. -/
def mkResp (ps : List Part) : GenerateContentResponse :=
  ⟨[⟨some ⟨ps⟩⟩]⟩

/-- A message sent TO the model through `session.SendMessage`: either
`genai.Text(prompt)` or `genai.FunctionResponse{Name, Response}`. -/
inductive SentMessage where
  | text (s : String)
  | functionResponse (name : String) (response : Args)
deriving Repr, DecidableEq

/-- The chat session (`a.model.StartChat()` plus `SendMessage`): a
deterministic behavior mapping the full history of messages sent so
far to the next model response, or to a transport error carrying the
underlying error message.  This is the abstract `ModelSession`
boundary of the spec. -/
structure Session where
  respond : List SentMessage → Except String GenerateContentResponse

/-- The errors `Agent.Run` can return, one constructor per
`fmt.Errorf` site, each carrying the wrapped message or tool name. -/
inductive RunError where
  | sendFailed (msg : String)
  | unknownTool (name : String)
  | sendToolErrorFailed (msg : String)
  | sendToolResultFailed (msg : String)
deriving Repr, DecidableEq

/-- The error strings produced by the `fmt.Errorf` calls in
`Agent.Run` (quote characters elided). -/
def RunError.message : RunError → String
  | .sendFailed m => "failed to send message: " ++ m
  | .unknownTool n => "model requested unknown tool: " ++ n
  | .sendToolErrorFailed m => "failed to send tool error response: " ++ m
  | .sendToolResultFailed m => "failed to send tool result: " ++ m

/-- A `Tool` value: the `FunctionDeclaration` schema (a nilable
pointer) and the `Execute` function.  `Execute` returns either a
result map or an error message (the `ctx` argument carries no
behavior in the embedding). -/
structure Tool where
  schema : Option FunctionDeclaration
  execute : Args → Except String Args

/-- An `Agent`: its configuration and its tool registry
(`map[string]Tool`).  The model binding is part of the external
`Session` boundary and carries no engine behavior. -/
structure AgentConfig where
  name : String
  description : String
  model : String
deriving Repr, DecidableEq

structure Agent where
  config : AgentConfig
  tools : List (String × Tool)

/-- The body of the `RegisterTools` loop: insert the tool under its
schema's `Name` when the schema is non-nil, otherwise leave the
registry unchanged. -/
def registerStep (m : List (String × Tool)) (t : Tool) : List (String × Tool) :=
  match t.schema with
  | none => m
  | some s => alistInsert m s.name t

/-- `RegisterTools(tools ...Tool)`: insert each tool whose `Schema`
is non-nil under its schema's `Name`; tools with a nil schema are
skipped; nothing is reported (the Go method has no return value). -/
def Agent.RegisterTools (a : Agent) (ts : List Tool) : Agent :=
  { a with tools := ts.foldl registerStep a.tools }

/-- The scan of `resp.Candidates[0].Content.Parts` for the first
`genai.FunctionCall` part (the `break` in the Go loop). -/
def firstFunctionCall : List Part → Option (String × Args)
  | [] => none
  | .functionCall n a :: _ => some (n, a)
  | _ :: ps => firstFunctionCall ps

/-- What a turn of the loop dispatches: `none` both when the response
is degenerate (`Candidates` nil/empty or `Content` nil) and when no
part is a `FunctionCall`; `some (name, args)` for the FIRST function
call in part order. -/
def turnDispatch (resp : GenerateContentResponse) : Option (String × Args) :=
  match resp.candidates with
  | [] => none
  | c :: _ =>
      match c.content with
      | none => none
      | some ct => firstFunctionCall ct.parts

/-- The text concatenation helper inside `responseToText` (a
`strings.Builder` appending every `genai.Text` part in order). -/
def partsText : List Part → String
  | [] => ""
  | .text s :: ps => s ++ partsText ps
  | _ :: ps => partsText ps

/-- `responseToText`: concatenate the text parts of the first
candidate, or return `""` when there is no candidate / no content. -/
def responseToText (resp : GenerateContentResponse) : String :=
  match resp.candidates with
  | [] => ""
  | c :: _ =>
      match c.content with
      | none => ""
      | some ct => partsText ct.parts

/-- One tool dispatch performed by the loop: the tool name and the
arguments passed to its executor. -/
abbrev Dispatch : Type := String × Args

/-- Outcome of the conversation loop.  `done` and `failed` are the Go
function's `return` statements; `outOfFuel` marks that the unbounded
Go `for` loop was still running when the fuel ran out.  Each outcome
records the full trace of messages sent to the session and of tool
dispatches performed. -/
inductive LoopResult where
  | done (result : String) (sent : List SentMessage) (dispatched : List Dispatch)
  | failed (e : RunError) (sent : List SentMessage) (dispatched : List Dispatch)
  | outOfFuel (sent : List SentMessage) (dispatched : List Dispatch)

/-- The messages sent to the session, for any outcome. -/
def LoopResult.sent : LoopResult → List SentMessage
  | .done _ s _ => s
  | .failed _ s _ => s
  | .outOfFuel s _ => s

/-- The tool dispatches performed, for any outcome. -/
def LoopResult.dispatched : LoopResult → List Dispatch
  | .done _ _ d => d
  | .failed _ _ d => d
  | .outOfFuel _ d => d

/-- The `for { ... }` loop of `Agent.Run`, one fuel unit per
iteration.  The two early `return responseToText(resp), nil` sites
(degenerate response; no function call) are both the
`turnDispatch = none` case. -/
def runLoop (tools : List (String × Tool)) (session : Session) :
    Nat → GenerateContentResponse → List SentMessage → List Dispatch → LoopResult
  | 0, _, sent, disp => .outOfFuel sent disp
  | fuel + 1, resp, sent, disp =>
      match turnDispatch resp with
      | none => .done (responseToText resp) sent disp
      | some (nm, ag) =>
          match alistLookup tools nm with
          | none => .failed (.unknownTool nm) sent disp
          | some tool =>
              match tool.execute ag with
              | .error msg =>
                  let sent' := sent ++ [SentMessage.functionResponse nm [("error", JValue.str msg)]]
                  match session.respond sent' with
                  | .error tm => .failed (.sendToolErrorFailed tm) sent' (disp ++ [(nm, ag)])
                  | .ok resp' => runLoop tools session fuel resp' sent' (disp ++ [(nm, ag)])
              | .ok result =>
                  let sent' := sent ++ [SentMessage.functionResponse nm result]
                  match session.respond sent' with
                  | .error tm => .failed (.sendToolResultFailed tm) sent' (disp ++ [(nm, ag)])
                  | .ok resp' => runLoop tools session fuel resp' sent' (disp ++ [(nm, ag)])

/-- `Agent.Run(ctx, prompt)`: send the initial prompt as a `Text`
part, then run the loop.  (The tools-advertisement mutation of
`a.model.Tools` configures the external model binding and is part of
the `Session` boundary.) -/
def Agent.Run (a : Agent) (session : Session) (prompt : String) (fuel : Nat) : LoopResult :=
  match session.respond [SentMessage.text prompt] with
  | .error m => .failed (.sendFailed m) [SentMessage.text prompt] []
  | .ok resp => runLoop a.tools session fuel resp [SentMessage.text prompt] []

/-! ## The sub-agent wrapper (`NewSubAgentTool`) -/

/-- `strings.ReplaceAll(s, old, new)` for a nonempty pattern
`o :: os`: scan left to right, replacing each (leftmost,
non-overlapping) occurrence of the pattern by `new`. -/
def goReplaceAll (o : Char) (os new : List Char) : List Char → List Char
  | [] => []
  | c :: cs =>
      if o = c ∧ List.isPrefixOf os cs then
        new ++ goReplaceAll o os new (List.drop os.length cs)
      else
        c :: goReplaceAll o os new cs
termination_by l => l.length
decreasing_by
  · simp only [List.length_cons, List.length_drop]
    omega
  · simp

/-- `strings.ReplaceAll(subAgent.config.Name, " ", "_")`. -/
def sanitizeName (s : String) : String :=
  ⟨goReplaceAll ' ' [] ['_'] s.data⟩

/-- The description of the `prompt` parameter in the generated
sub-agent schema. -/
def subAgentPromptDescription : String :=
  "The detailed prompt or question to ask this agent."

/-- The error message for a missing / non-string `prompt` argument
(`fmt.Errorf("invalid 'prompt' argument, expected a string")`,
quote characters elided). -/
def invalidPromptMessage : String :=
  "invalid prompt argument, expected a string"

/-- The error message wrapping a failed child run
(`fmt.Errorf("sub-agent '%s' failed: %w", ...)`, quote characters
elided). -/
def subAgentFailedMessage (childName : String) (e : RunError) : String :=
  "sub-agent " ++ childName ++ " failed: " ++ e.message

/-- `NewSubAgentTool(subAgent)`: wraps a child agent as a tool.
`childRun` abstracts `subAgent.Run(ctx, prompt)` — the child's
conversation engine applied to its own session (its `(string, error)`
return is an `Except`). -/
def NewSubAgentTool (config : AgentConfig) (childRun : String → Except RunError String) : Tool :=
  { schema := some
      { name := sanitizeName config.name
        description := config.description
        parameters := some (GSchema.mk .object ""
          [("prompt", GSchema.mk .string subAgentPromptDescription [] [])]
          ["prompt"]) }
    execute := fun args =>
      match alistLookup args "prompt" with
      | some (JValue.str prompt) =>
          match childRun prompt with
          | .error e => .error (subAgentFailedMessage config.name e)
          | .ok result => .ok [("result", JValue.str result)]
      | _ => .error invalidPromptMessage }

/-! ## Concrete fixtures (session doubles and sample inputs) -/

/-- A record description for a weather query: a required string field
and an optional integer field. -/
def demoFields : List StructField :=
  [⟨"Location", "location", "the city", .stringK⟩,
   ⟨"Days", "days,omitempty", "", .intK⟩]

/-- The schema `generateSchemaFromStruct` produces for `demoFields`. -/
def demoSchema : GSchema :=
  GSchema.mk .object ""
    [("location", GSchema.mk .string "the city" [] []),
     ("days", GSchema.mk .integer "" [] [])]
    ["location"]

/-- Lexicographic (byte-order) comparison of character lists: the
order in which Go sorts map keys when marshaling. -/
def charListLe : List Char → List Char → Bool
  | [], _ => true
  | _ :: _, [] => false
  | a :: as, b :: bs =>
      if a = b then charListLe as bs else Nat.blt a.toNat b.toNat

/-- The key order in which a marshaled Go map is observed:
`encoding/json` (and the textual form of the proto map) emits map
entries with their keys sorted, the only deterministic order a Go
`map[string]*genai.Schema` exhibits externally.  Computed from the
key set; for distinct keys it does not depend on the association
list's internal order. -/
def marshalKeyOrder (s : GSchema) : List String :=
  (s.properties.map Prod.fst).insertionSort fun a b => charListLe a.data b.data = true

/-- Two fields, both optional, declared as `[location, days]`. -/
def orderFieldsA : List StructField :=
  [⟨"Location", "location,omitempty", "", .stringK⟩,
   ⟨"Days", "days,omitempty", "", .intK⟩]

/-- The same two fields declared in the other order `[days, location]`. -/
def orderFieldsB : List StructField :=
  [⟨"Days", "days,omitempty", "", .intK⟩,
   ⟨"Location", "location,omitempty", "", .stringK⟩]

/-- The schema generated for `orderFieldsA`. -/
def orderSchemaA : GSchema :=
  GSchema.mk .object ""
    [("location", GSchema.mk .string "" [] []),
     ("days", GSchema.mk .integer "" [] [])]
    []

/-- The schema generated for `orderFieldsB`. -/
def orderSchemaB : GSchema :=
  GSchema.mk .object ""
    [("days", GSchema.mk .integer "" [] []),
     ("location", GSchema.mk .string "" [] [])]
    []

/-- A record description with an ignored field (tag `-`) and an
untagged field. -/
def c7Fields : List StructField :=
  [⟨"City", "city", "", .stringK⟩,
   ⟨"Secret", "-", "", .stringK⟩,
   ⟨"Hidden", "", "", .boolK⟩,
   ⟨"Days", "days,omitempty", "", .intK⟩]

/-- The schema `generateSchemaFromStruct` produces for `c7Fields`. -/
def c7Schema : GSchema :=
  GSchema.mk .object ""
    [("city", GSchema.mk .string "" [] []),
     ("days", GSchema.mk .integer "" [] [])]
    ["city"]

/-- An agent with an empty tool registry. -/
def c1Agent : Agent := ⟨⟨"Parent", "", "gemini-1.5-flash-latest"⟩, []⟩

/-- A session double whose every response requests the unregistered
tool `nope`. -/
def c1Session : Session := ⟨fun _ => .ok (mkResp [Part.functionCall "nope" []])⟩

/-- A session double whose every send succeeds and whose every
response requests the unregistered tool `ghost`. -/
def ghostSession : Session := ⟨fun _ => .ok (mkResp [Part.functionCall "ghost" []])⟩

/-- An agent (empty registry) for the `ghost` scenario. -/
def ghostAgent : Agent := ⟨⟨"P", "", "gemini-1.5-flash-latest"⟩, []⟩

/-- A tool whose executor always fails with message `kaput`. -/
def boomTool : Tool := ⟨some ⟨"boom", "always fails", none⟩, fun _ => .error "kaput"⟩

/-- Registry holding only `boomTool`. -/
def c3Tools : List (String × Tool) := [("boom", boomTool)]

/-- A session double: first a call to `boom`, then (once a tool
result has been sent back) a plain text answer. -/
def c3Session : Session :=
  ⟨fun hist =>
    if hist.length ≤ 1 then .ok (mkResp [Part.functionCall "boom" []])
    else .ok (mkResp [Part.text "apologies, that tool failed"])⟩

/-- A session double that answers every prompt with two text parts
and no function call. -/
def c6Session : Session := ⟨fun _ => .ok (mkResp [Part.text "a", Part.text "b"])⟩

/-- An agent (empty registry) for the text-only scenario. -/
def c6Agent : Agent := ⟨⟨"T", "", "gemini-1.5-flash-latest"⟩, []⟩

/-- A registered tool that always succeeds. -/
def c9Tool : Tool := ⟨some ⟨"t", "ping", none⟩, fun _ => .ok [("r", JValue.str "x")]⟩

/-- Registry holding only `c9Tool`. -/
def c9Tools : List (String × Tool) := [("t", c9Tool)]

/-- An agent holding `c9Tool`. -/
def c9Agent : Agent := ⟨⟨"Loop", "", "gemini-1.5-flash-latest"⟩, c9Tools⟩

/-- A session double that requests a call to the registered tool `t`
on every single turn: the infinite tool-call ping-pong behavior. -/
def c9Session : Session := ⟨fun _ => .ok (mkResp [Part.functionCall "t" []])⟩

/-- The message `c9Session` receives after each dispatch. -/
def c9FrMessage : SentMessage := SentMessage.functionResponse "t" [("r", JValue.str "x")]

/-- A tool value with a nil schema. -/
def c10NilTool : Tool := ⟨none, fun _ => .ok []⟩

/-- A tool value with schema name `n`. -/
def c10NamedTool : Tool := ⟨some ⟨"n", "named", none⟩, fun _ => .ok []⟩

/-- An agent with an empty registry for the registration scenario. -/
def c10Agent : Agent := ⟨⟨"R", "", "gemini-1.5-flash-latest"⟩, []⟩

/-- A session double whose every send fails with transport error
message `boom`. -/
def failSession : Session := ⟨fun _ => .error "boom"⟩

/-- An agent (empty registry) for the transport-failure scenario. -/
def failAgent : Agent := ⟨⟨"F", "", "gemini-1.5-flash-latest"⟩, []⟩

/-- The configuration of the sample child agent. -/
def wConfig : AgentConfig := ⟨"Weather Agent", "answers weather questions", "gemini-1.5-flash-latest"⟩

/-- A child-run behavior: prompt `ping` succeeds with `pong`, any
other prompt fails with a transport error. -/
def wChildRun : String → Except RunError String :=
  fun p => if p = "ping" then .ok "pong" else .error (.sendFailed "x")

/-! ## Association list lemmas -/

theorem alistInsert_cons_self {α : Type} (k : String) (v v' : α) (tl : List (String × α)) :
    alistInsert ((k, v') :: tl) k v = (k, v) :: tl := by
  simp [alistInsert]

theorem alistInsert_cons_ne {α : Type} {k' k : String} (h : ¬k' = k) (v v' : α)
    (tl : List (String × α)) :
    alistInsert ((k', v') :: tl) k v = (k', v') :: alistInsert tl k v := by
  simp [alistInsert, h]

theorem alistLookup_cons {α : Type} (k key : String) (v : α) (tl : List (String × α)) :
    alistLookup ((k, v) :: tl) key = if k = key then some v else alistLookup tl key := rfl

theorem exists_mem_alistInsert {α : Type} (l : List (String × α)) (k : String) (v : α)
    (w : String) :
    (∃ g, (w, g) ∈ alistInsert l k v) ↔ w = k ∨ ∃ g, (w, g) ∈ l := by
  induction l with
  | nil => simp [alistInsert, Prod.ext_iff]
  | cons hd tl ih =>
      obtain ⟨k', v'⟩ := hd
      by_cases hk : k' = k
      · subst hk
        rw [alistInsert_cons_self]
        simp only [List.mem_cons, Prod.mk.injEq]
        constructor
        · rintro ⟨g, ⟨hw, hv⟩ | hg⟩
          · exact Or.inl hw
          · exact Or.inr ⟨g, Or.inr hg⟩
        · rintro (hw | ⟨g, ⟨hw, hv⟩ | hg⟩)
          · exact ⟨v, Or.inl ⟨hw, rfl⟩⟩
          · exact ⟨v, Or.inl ⟨hw, rfl⟩⟩
          · exact ⟨g, Or.inr hg⟩
      · rw [alistInsert_cons_ne hk]
        simp only [List.mem_cons, Prod.mk.injEq]
        constructor
        · rintro ⟨g, ⟨hw, hv⟩ | hg⟩
          · exact Or.inr ⟨v', Or.inl ⟨hw, rfl⟩⟩
          · rcases ih.mp ⟨g, hg⟩ with hw | ⟨g', hg'⟩
            · exact Or.inl hw
            · exact Or.inr ⟨g', Or.inr hg'⟩
        · rintro (hw | ⟨g, ⟨hw, hv⟩ | hg⟩)
          · obtain ⟨g, hg⟩ := ih.mpr (Or.inl hw)
            exact ⟨g, Or.inr hg⟩
          · exact ⟨v', Or.inl ⟨hw, rfl⟩⟩
          · obtain ⟨g', hg'⟩ := ih.mpr (Or.inr ⟨g, hg⟩)
            exact ⟨g', Or.inr hg'⟩

theorem alistLookup_insert_self {α : Type} (l : List (String × α)) (k : String) (v : α) :
    alistLookup (alistInsert l k v) k = some v := by
  induction l with
  | nil => simp [alistInsert, alistLookup]
  | cons hd tl ih =>
      obtain ⟨k', v'⟩ := hd
      by_cases hk : k' = k
      · subst hk
        rw [alistInsert_cons_self, alistLookup_cons, if_pos rfl]
      · rw [alistInsert_cons_ne hk, alistLookup_cons, if_neg hk]
        exact ih

theorem alistLookup_insert_ne {α : Type} (l : List (String × α)) (k key : String) (v : α)
    (h : ¬key = k) : alistLookup (alistInsert l k v) key = alistLookup l key := by
  have h' : ¬k = key := fun hh => h hh.symm
  induction l with
  | nil => simp [alistInsert, alistLookup, h']
  | cons hd tl ih =>
      obtain ⟨k', v'⟩ := hd
      by_cases hk : k' = k
      · subst hk
        rw [alistInsert_cons_self, alistLookup_cons, alistLookup_cons, if_neg h', if_neg h']
      · rw [alistInsert_cons_ne hk, alistLookup_cons, alistLookup_cons, ih]

theorem alistLookup_insert_isSome {α : Type} (l : List (String × α)) (k key : String) (v : α) :
    (alistLookup (alistInsert l k v) key).isSome = true ↔
      key = k ∨ (alistLookup l key).isSome = true := by
  by_cases hk : key = k
  · subst hk
    simp [alistLookup_insert_self]
  · rw [alistLookup_insert_ne l k key v hk]
    simp [hk]

/-! ## Schema generator lemmas -/

theorem genLoop_nil (props : List (String × GSchema)) (req : List String) :
    genLoop [] props req = .ok (props, req) := rfl

theorem genLoop_cons_skipped {f : StructField} (h : f.skipped) (fs : List StructField)
    (props : List (String × GSchema)) (req : List String) :
    genLoop (f :: fs) props req = genLoop fs props req := by
  rw [genLoop, if_pos h]

theorem genLoop_cons_included {f : StructField} {t : SchemaType} (h : ¬f.skipped)
    (hk : goKindToType f.kind = some t) (fs : List StructField)
    (props : List (String × GSchema)) (req : List String) :
    genLoop (f :: fs) props req =
      genLoop fs (alistInsert props f.propName (GSchema.mk t f.descriptionTag [] []))
        (if f.isOptional then req else req ++ [f.propName]) := by
  rw [genLoop, if_neg h]
  simp only [hk]

theorem genLoop_ok_required_mem :
    ∀ (fields : List StructField) (props : List (String × GSchema)) (req : List String)
      (p' : List (String × GSchema)) (r' : List String),
      genLoop fields props req = .ok (p', r') →
      ∀ w, w ∈ r' ↔ w ∈ req ∨
        ∃ f, f ∈ fields ∧ ¬f.skipped ∧ f.propName = w ∧ ¬f.isOptional := by
  intro fields
  induction fields with
  | nil =>
      intro props req p' r' h w
      rw [genLoop_nil] at h
      simp only [Except.ok.injEq, Prod.mk.injEq] at h
      simp [← h.2]
  | cons f fs ih =>
      intro props req p' r' h w
      by_cases hsk : f.skipped
      · rw [genLoop_cons_skipped hsk] at h
        rw [ih props req p' r' h w]
        constructor
        · rintro (hw | ⟨g, hg, hrest⟩)
          · exact Or.inl hw
          · exact Or.inr ⟨g, List.mem_cons_of_mem _ hg, hrest⟩
        · rintro (hw | ⟨g, hg, hsk', hrest⟩)
          · exact Or.inl hw
          · rcases List.mem_cons.mp hg with rfl | hg'
            · exact absurd hsk hsk'
            · exact Or.inr ⟨g, hg', hsk', hrest⟩
      · cases hk : goKindToType f.kind with
        | none =>
            rw [genLoop, if_neg hsk] at h
            simp only [hk] at h
            exact absurd h (by simp)
        | some t =>
            rw [genLoop_cons_included hsk hk] at h
            by_cases hop : f.isOptional
            · rw [if_pos hop] at h
              rw [ih _ _ p' r' h w]
              constructor
              · rintro (hw | ⟨g, hg, hrest⟩)
                · exact Or.inl hw
                · exact Or.inr ⟨g, List.mem_cons_of_mem _ hg, hrest⟩
              · rintro (hw | ⟨g, hg, hsk', hpn, hop'⟩)
                · exact Or.inl hw
                · rcases List.mem_cons.mp hg with rfl | hg'
                  · exact absurd hop hop'
                  · exact Or.inr ⟨g, hg', hsk', hpn, hop'⟩
            · rw [if_neg hop] at h
              rw [ih _ _ p' r' h w]
              constructor
              · rintro (hw | ⟨g, hg, hrest⟩)
                · rcases List.mem_append.mp hw with hw' | hw'
                  · exact Or.inl hw'
                  · exact Or.inr ⟨f, List.mem_cons_self _ _, hsk,
                      (List.mem_singleton.mp hw').symm, hop⟩
                · exact Or.inr ⟨g, List.mem_cons_of_mem _ hg, hrest⟩
              · rintro (hw | ⟨g, hg, hsk', hpn, hop'⟩)
                · exact Or.inl (List.mem_append.mpr (Or.inl hw))
                · rcases List.mem_cons.mp hg with rfl | hg'
                  · exact Or.inl (List.mem_append.mpr (Or.inr (List.mem_singleton.mpr hpn.symm)))
                  · exact Or.inr ⟨g, hg', hsk', hpn, hop'⟩

theorem genLoop_ok_props_mem :
    ∀ (fields : List StructField) (props : List (String × GSchema)) (req : List String)
      (p' : List (String × GSchema)) (r' : List String),
      genLoop fields props req = .ok (p', r') →
      ∀ w, (∃ g, (w, g) ∈ p') ↔ (∃ g, (w, g) ∈ props) ∨
        ∃ f, f ∈ fields ∧ ¬f.skipped ∧ f.propName = w := by
  intro fields
  induction fields with
  | nil =>
      intro props req p' r' h w
      rw [genLoop_nil] at h
      simp only [Except.ok.injEq, Prod.mk.injEq] at h
      simp [← h.1]
  | cons f fs ih =>
      intro props req p' r' h w
      by_cases hsk : f.skipped
      · rw [genLoop_cons_skipped hsk] at h
        rw [ih props req p' r' h w]
        constructor
        · rintro (hw | ⟨g, hg, hrest⟩)
          · exact Or.inl hw
          · exact Or.inr ⟨g, List.mem_cons_of_mem _ hg, hrest⟩
        · rintro (hw | ⟨g, hg, hsk', hpn⟩)
          · exact Or.inl hw
          · rcases List.mem_cons.mp hg with rfl | hg'
            · exact absurd hsk hsk'
            · exact Or.inr ⟨g, hg', hsk', hpn⟩
      · cases hk : goKindToType f.kind with
        | none =>
            rw [genLoop, if_neg hsk] at h
            simp only [hk] at h
            exact absurd h (by simp)
        | some t =>
            rw [genLoop_cons_included hsk hk] at h
            rw [ih _ _ p' r' h w, exists_mem_alistInsert]
            constructor
            · rintro ((hw | hw) | ⟨g, hg, hrest⟩)
              · exact Or.inr ⟨f, List.mem_cons_self _ _, hsk, hw.symm⟩
              · exact Or.inl hw
              · exact Or.inr ⟨g, List.mem_cons_of_mem _ hg, hrest⟩
            · rintro (hw | ⟨g, hg, hsk', hpn⟩)
              · exact Or.inl (Or.inr hw)
              · rcases List.mem_cons.mp hg with rfl | hg'
                · exact Or.inl (Or.inl hpn.symm)
                · exact Or.inr ⟨g, hg', hsk', hpn⟩

/-! ## Claim theorems: the schema generator -/

/-- C2 (code bug): the program does not preserve the declaration
order of the properties.  `generateSchemaFromStruct` stores them in a
Go `map[string]*genai.Schema`, which has no order: at `demoFields`
the declaration order is `[location, days]`, but the only
deterministic order the generated map exhibits — the sorted key order
of Go's map marshaling — is `[days, location]`.  Moreover two record
descriptions that differ only in declaration order (`orderFieldsA`
and `orderFieldsB`) generate schemas that are equal as Go values
(key-permuted properties, i.e. the same map, and identical
`required`), so the generated schema carries no declaration-order
information at all.  The map CONTENTS are deterministic, and the
`required` slice does preserve declaration order. -/
theorem schema_property_order_mismatch :
    generateSchemaFromStruct demoFields = .ok demoSchema
    ∧ includedWireNames demoFields = ["location", "days"]
    ∧ marshalKeyOrder demoSchema = ["days", "location"]
    ∧ marshalKeyOrder demoSchema ≠ includedWireNames demoFields
    ∧ generateSchemaFromStruct orderFieldsA = .ok orderSchemaA
    ∧ generateSchemaFromStruct orderFieldsB = .ok orderSchemaB
    ∧ includedWireNames orderFieldsA ≠ includedWireNames orderFieldsB
    ∧ List.Perm orderSchemaA.properties orderSchemaB.properties
    ∧ orderSchemaA.required = orderSchemaB.required := by
  refine ⟨rfl, by decide, by decide, by decide, rfl, rfl, by decide, ?_, rfl⟩
  exact List.Perm.swap _ _ _

/-- C7: a wire name appears in the generated schema's `required` set
iff some field carries it, is not skipped (has a wire name, is not
marked ignore) and is not marked optional; and a wire name appears in
the `properties` mapping iff some non-skipped field carries it — so
skipped fields contribute to neither. -/
theorem required_iff_not_optional :
    ∀ (fields : List StructField) (s : GSchema),
      generateSchemaFromStruct fields = .ok s →
      (∀ w, w ∈ s.required ↔
        ∃ f, f ∈ fields ∧ ¬f.skipped ∧ f.propName = w ∧ ¬f.isOptional)
      ∧ ∀ w, (∃ g, (w, g) ∈ s.properties) ↔
        ∃ f, f ∈ fields ∧ ¬f.skipped ∧ f.propName = w := by
  intro fields s h
  unfold generateSchemaFromStruct at h
  cases hg : genLoop fields [] [] with
  | error e => rw [hg] at h; exact absurd h (by simp)
  | ok pr =>
      obtain ⟨p, r⟩ := pr
      rw [hg] at h
      simp only [Except.ok.injEq] at h
      constructor
      · intro w
        have := genLoop_ok_required_mem fields [] [] p r hg w
        rw [← h]
        simpa using this
      · intro w
        have := genLoop_ok_props_mem fields [] [] p r hg w
        rw [← h]
        simpa using this

/-- Witness for C7 at a concrete record description with ignored,
untagged, optional and required fields. -/
theorem required_iff_not_optional_witness :
    generateSchemaFromStruct c7Fields = .ok c7Schema
    ∧ "city" ∈ c7Schema.required
    ∧ "days" ∉ c7Schema.required
    ∧ ¬(∃ g, ("-", g) ∈ c7Schema.properties) := by
  refine ⟨rfl, ?_, ?_, ?_⟩
  · exact ((required_iff_not_optional c7Fields c7Schema rfl).1 "city").mpr
      ⟨⟨"City", "city", "", .stringK⟩, by decide, by decide, by decide, by decide⟩
  · intro hmem
    have := ((required_iff_not_optional c7Fields c7Schema rfl).1 "days").mp hmem
    exact absurd this (by decide)
  · intro hmem
    have := ((required_iff_not_optional c7Fields c7Schema rfl).2 "-").mp hmem
    exact absurd this (by decide)

/-! ## Conversation loop lemmas -/

theorem turnDispatch_mkResp (ps : List Part) :
    turnDispatch (mkResp ps) = firstFunctionCall ps := rfl

theorem responseToText_mkResp (ps : List Part) :
    responseToText (mkResp ps) = partsText ps := rfl

theorem runLoop_zero (tools : List (String × Tool)) (session : Session)
    (resp : GenerateContentResponse) (sent : List SentMessage) (disp : List Dispatch) :
    runLoop tools session 0 resp sent disp = .outOfFuel sent disp := rfl

theorem runLoop_succ_no_call {resp : GenerateContentResponse} (h : turnDispatch resp = none)
    (tools : List (String × Tool)) (session : Session) (fuel : Nat)
    (sent : List SentMessage) (disp : List Dispatch) :
    runLoop tools session (fuel + 1) resp sent disp = .done (responseToText resp) sent disp := by
  simp only [runLoop, h]

theorem runLoop_succ_unknown {tools : List (String × Tool)} {resp : GenerateContentResponse}
    {nm : String} {ag : Args} (h1 : turnDispatch resp = some (nm, ag))
    (h2 : alistLookup tools nm = none) (session : Session) (fuel : Nat)
    (sent : List SentMessage) (disp : List Dispatch) :
    runLoop tools session (fuel + 1) resp sent disp = .failed (.unknownTool nm) sent disp := by
  simp only [runLoop, h1, h2]

theorem runLoop_succ_exec_error {tools : List (String × Tool)} {resp : GenerateContentResponse}
    {nm : String} {ag : Args} {t : Tool} {msg : String}
    (h1 : turnDispatch resp = some (nm, ag)) (h2 : alistLookup tools nm = some t)
    (h3 : t.execute ag = .error msg) (session : Session) (fuel : Nat)
    (sent : List SentMessage) (disp : List Dispatch) :
    runLoop tools session (fuel + 1) resp sent disp =
      match session.respond (sent ++ [SentMessage.functionResponse nm
          [("error", JValue.str msg)]]) with
      | .error tm => .failed (.sendToolErrorFailed tm)
          (sent ++ [SentMessage.functionResponse nm [("error", JValue.str msg)]])
          (disp ++ [(nm, ag)])
      | .ok resp' => runLoop tools session fuel resp'
          (sent ++ [SentMessage.functionResponse nm [("error", JValue.str msg)]])
          (disp ++ [(nm, ag)]) := by
  simp only [runLoop, h1, h2, h3]

theorem runLoop_succ_exec_ok {tools : List (String × Tool)} {resp : GenerateContentResponse}
    {nm : String} {ag : Args} {t : Tool} {res : Args}
    (h1 : turnDispatch resp = some (nm, ag)) (h2 : alistLookup tools nm = some t)
    (h3 : t.execute ag = .ok res) (session : Session) (fuel : Nat)
    (sent : List SentMessage) (disp : List Dispatch) :
    runLoop tools session (fuel + 1) resp sent disp =
      match session.respond (sent ++ [SentMessage.functionResponse nm res]) with
      | .error tm => .failed (.sendToolResultFailed tm)
          (sent ++ [SentMessage.functionResponse nm res]) (disp ++ [(nm, ag)])
      | .ok resp' => runLoop tools session fuel resp'
          (sent ++ [SentMessage.functionResponse nm res]) (disp ++ [(nm, ag)]) := by
  simp only [runLoop, h1, h2, h3]

theorem runLoop_dispatched_extend (tools : List (String × Tool)) (session : Session) :
    ∀ (fuel : Nat) (resp : GenerateContentResponse) (sent : List SentMessage)
      (disp : List Dispatch),
      ∃ rest, (runLoop tools session fuel resp sent disp).dispatched = disp ++ rest := by
  intro fuel
  induction fuel with
  | zero =>
      intro resp sent disp
      exact ⟨[], by simp [runLoop_zero, LoopResult.dispatched]⟩
  | succ n ih =>
      intro resp sent disp
      cases htd : turnDispatch resp with
      | none =>
          exact ⟨[], by simp [runLoop_succ_no_call htd, LoopResult.dispatched]⟩
      | some pr =>
          obtain ⟨nm, ag⟩ := pr
          cases hlk : alistLookup tools nm with
          | none =>
              exact ⟨[], by simp [runLoop_succ_unknown htd hlk, LoopResult.dispatched]⟩
          | some t =>
              cases hex : t.execute ag with
              | error msg =>
                  rw [runLoop_succ_exec_error htd hlk hex]
                  cases hrsp : session.respond (sent ++ [SentMessage.functionResponse nm
                      [("error", JValue.str msg)]]) with
                  | error tm =>
                      refine ⟨[(nm, ag)], ?_⟩
                      simp only [hrsp, LoopResult.dispatched]
                  | ok resp' =>
                      obtain ⟨rest, hr⟩ := ih resp'
                        (sent ++ [SentMessage.functionResponse nm [("error", JValue.str msg)]])
                        (disp ++ [(nm, ag)])
                      refine ⟨(nm, ag) :: rest, ?_⟩
                      simp only [hrsp]
                      rw [hr]
                      simp
              | ok res =>
                  rw [runLoop_succ_exec_ok htd hlk hex]
                  cases hrsp : session.respond (sent ++ [SentMessage.functionResponse nm res]) with
                  | error tm =>
                      refine ⟨[(nm, ag)], ?_⟩
                      simp only [hrsp, LoopResult.dispatched]
                  | ok resp' =>
                      obtain ⟨rest, hr⟩ := ih resp'
                        (sent ++ [SentMessage.functionResponse nm res]) (disp ++ [(nm, ag)])
                      refine ⟨(nm, ag) :: rest, ?_⟩
                      simp only [hrsp]
                      rw [hr]
                      simp

theorem firstFunctionCall_append {ps1 : List Part}
    (h : ∀ n a, Part.functionCall n a ∉ ps1) (nm : String) (ag : Args) (ps2 : List Part) :
    firstFunctionCall (ps1 ++ Part.functionCall nm ag :: ps2) = some (nm, ag) := by
  induction ps1 with
  | nil => rfl
  | cons p ps ih =>
      have h' : ∀ n a, Part.functionCall n a ∉ ps :=
        fun n a hm => h n a (List.mem_cons_of_mem _ hm)
      cases p with
      | text s => simpa [firstFunctionCall] using ih h'
      | functionCall n a => exact absurd (List.mem_cons_self _ _) (h n a)
      | functionResponsePart n r => simpa [firstFunctionCall] using ih h'

/-! ## Sanitization lemmas -/

theorem goReplaceAll_space :
    ∀ l : List Char, goReplaceAll ' ' [] ['_'] l = l.map fun c => if c = ' ' then '_' else c := by
  intro l
  induction l with
  | nil => simp [goReplaceAll]
  | cons c cs ih =>
      by_cases hc : c = ' '
      · subst hc
        rw [goReplaceAll, if_pos ⟨rfl, by simp [List.isPrefixOf]⟩]
        simp [ih]
      · rw [goReplaceAll, if_neg fun hcc => hc hcc.1.symm]
        simp [ih, hc]

theorem sanitizeName_eq_map (s : String) :
    sanitizeName s = ⟨s.data.map fun c => if c = ' ' then '_' else c⟩ :=
  congrArg String.mk (goReplaceAll_space s.data)

/-! ## Registration lemmas -/

theorem registerStep_none {t : Tool} (h : t.schema = none) (m : List (String × Tool)) :
    registerStep m t = m := by
  simp [registerStep, h]

theorem registerStep_some {t : Tool} {s : FunctionDeclaration} (h : t.schema = some s)
    (m : List (String × Tool)) : registerStep m t = alistInsert m s.name t := by
  simp [registerStep, h]

theorem foldl_registerStep_filter :
    ∀ (ts : List Tool) (m : List (String × Tool)),
      (ts.filter fun t => t.schema.isSome).foldl registerStep m = ts.foldl registerStep m := by
  intro ts
  induction ts with
  | nil => intro m; rfl
  | cons t ts ih =>
      intro m
      cases ht : t.schema with
      | none =>
          rw [List.foldl_cons, registerStep_none ht]
          have hf : (t :: ts).filter (fun t => t.schema.isSome) =
              ts.filter fun t => t.schema.isSome := by
            simp [List.filter_cons, ht]
          rw [hf, ih]
      | some s =>
          have hf : (t :: ts).filter (fun t => t.schema.isSome) =
              t :: ts.filter fun t => t.schema.isSome := by
            simp [List.filter_cons, ht]
          rw [hf, List.foldl_cons, List.foldl_cons, ih]

theorem foldl_registerStep_lookup :
    ∀ (ts : List Tool) (m : List (String × Tool)) (nm : String),
      (alistLookup (ts.foldl registerStep m) nm).isSome = true ↔
        (alistLookup m nm).isSome = true
        ∨ ∃ t, t ∈ ts ∧ ∃ s, t.schema = some s ∧ s.name = nm := by
  intro ts
  induction ts with
  | nil => intro m nm; simp
  | cons t ts ih =>
      intro m nm
      rw [List.foldl_cons]
      cases ht : t.schema with
      | none =>
          rw [registerStep_none ht, ih m nm]
          constructor
          · rintro (hm | ⟨t', ht', hs⟩)
            · exact Or.inl hm
            · exact Or.inr ⟨t', List.mem_cons_of_mem _ ht', hs⟩
          · rintro (hm | ⟨t', ht', s, hs, hn⟩)
            · exact Or.inl hm
            · rcases List.mem_cons.mp ht' with rfl | h'
              · rw [ht] at hs; cases hs
              · exact Or.inr ⟨t', h', s, hs, hn⟩
      | some s =>
          rw [registerStep_some ht, ih _ nm, alistLookup_insert_isSome]
          constructor
          · rintro ((hn | hm) | ⟨t', ht', hs⟩)
            · exact Or.inr ⟨t, List.mem_cons_self _ _, s, ht, hn.symm⟩
            · exact Or.inl hm
            · exact Or.inr ⟨t', List.mem_cons_of_mem _ ht', hs⟩
          · rintro (hm | ⟨t', ht', s', hs', hn⟩)
            · exact Or.inl (Or.inr hm)
            · rcases List.mem_cons.mp ht' with rfl | h'
              · rw [ht] at hs'
                injection hs' with hss
                subst hss
                exact Or.inl (Or.inl hn.symm)
              · exact Or.inr ⟨t', h', s', hs', hn⟩

/-! ## Claim theorems: the conversation loop and the wrappers -/

/-- C1 counterexample: with an empty registry and a session whose
first response requests the unregistered tool `nope`, `Run` DOES
terminate with a failure (`unknown tool`), and no error-bearing
tool-result message is ever sent back to the session. -/
theorem unknown_tool_terminates_run_cex :
    c1Agent.Run c1Session "go" 5 = .failed (.unknownTool "nope") [SentMessage.text "go"] []
    ∧ ((c1Agent.Run c1Session "go" 5).sent.all fun m =>
        match m with
        | SentMessage.functionResponse _ _ => false
        | _ => true) = true :=
  ⟨rfl, rfl⟩

/-- C1 (amended): for every model behavior whose first response's
first tool-call request names a tool absent from the registry, `Run`
terminates immediately with the fatal `unknown tool` error, having
sent only the initial prompt and dispatched nothing. -/
theorem unknown_tool_fails_run :
    ∀ (a : Agent) (session : Session) (prompt : String) (fuel : Nat) (nm : String) (ag : Args)
      (resp : GenerateContentResponse),
      session.respond [SentMessage.text prompt] = .ok resp →
      turnDispatch resp = some (nm, ag) →
      alistLookup a.tools nm = none →
      a.Run session prompt (fuel + 1) =
        .failed (.unknownTool nm) [SentMessage.text prompt] [] := by
  intro a session prompt fuel nm ag resp hresp htd hlk
  simp only [Agent.Run, hresp]
  exact runLoop_succ_unknown htd hlk session fuel _ _

/-- Witness for the amended C1 at a concrete session double. -/
theorem unknown_tool_fails_run_witness :
    c1Agent.Run c1Session "go" 5 = .failed (.unknownTool "nope") [SentMessage.text "go"] [] :=
  unknown_tool_fails_run c1Agent c1Session "go" 4 "nope" []
    (mkResp [Part.functionCall "nope" []]) rfl rfl rfl

/-- C3: when the dispatched tool's executor reports an error, the
loop packages the message as a tool-result payload carrying an
`error` field, sends it through the session exactly as a successful
result would be sent, and continues (the executor's error itself is
never `Run`'s own result — only a subsequent transport failure is). -/
theorem executor_error_is_recoverable :
    ∀ (tools : List (String × Tool)) (session : Session) (fuel : Nat)
      (resp : GenerateContentResponse) (sent : List SentMessage) (disp : List Dispatch)
      (nm : String) (ag : Args) (t : Tool) (msg : String),
      turnDispatch resp = some (nm, ag) →
      alistLookup tools nm = some t →
      t.execute ag = .error msg →
      runLoop tools session (fuel + 1) resp sent disp =
        match session.respond (sent ++ [SentMessage.functionResponse nm
            [("error", JValue.str msg)]]) with
        | .error tm => .failed (.sendToolErrorFailed tm)
            (sent ++ [SentMessage.functionResponse nm [("error", JValue.str msg)]])
            (disp ++ [(nm, ag)])
        | .ok resp' => runLoop tools session fuel resp'
            (sent ++ [SentMessage.functionResponse nm [("error", JValue.str msg)]])
            (disp ++ [(nm, ag)]) :=
  fun _ session fuel _ sent disp _ _ _ _ h1 h2 h3 =>
    runLoop_succ_exec_error h1 h2 h3 session fuel sent disp

/-- Witness for C3: a failing tool leads to an error payload being
sent and the conversation reaching the model's apology text. -/
theorem executor_error_is_recoverable_witness :
    runLoop c3Tools c3Session 2 (mkResp [Part.functionCall "boom" []])
      [SentMessage.text "p"] [] =
      LoopResult.done "apologies, that tool failed"
        [SentMessage.text "p",
          SentMessage.functionResponse "boom" [("error", JValue.str "kaput")]]
        [("boom", [])] := by
  rw [executor_error_is_recoverable c3Tools c3Session 1 (mkResp [Part.functionCall "boom" []])
    [SentMessage.text "p"] [] "boom" [] boomTool "kaput" rfl rfl rfl]
  rfl

/-- C5: when a response's parts are some non-call parts, then a first
tool-call request, then arbitrary further parts (possibly more
calls), the turn dispatches exactly that first call: the dispatch
trace of the whole remaining run extends `disp` with that call first,
and nothing else is dispatched within that turn. -/
theorem single_tool_call_per_turn :
    ∀ (ps1 : List Part) (nm : String) (ag : Args) (ps2 : List Part)
      (tools : List (String × Tool)) (session : Session) (fuel : Nat)
      (sent : List SentMessage) (disp : List Dispatch) (t : Tool),
      (∀ n a, Part.functionCall n a ∉ ps1) →
      alistLookup tools nm = some t →
      turnDispatch (mkResp (ps1 ++ Part.functionCall nm ag :: ps2)) = some (nm, ag)
      ∧ ∃ rest,
          (runLoop tools session (fuel + 1) (mkResp (ps1 ++ Part.functionCall nm ag :: ps2))
            sent disp).dispatched = disp ++ (nm, ag) :: rest := by
  intro ps1 nm ag ps2 tools session fuel sent disp t h1 h2
  have htd : turnDispatch (mkResp (ps1 ++ Part.functionCall nm ag :: ps2)) = some (nm, ag) := by
    rw [turnDispatch_mkResp]
    exact firstFunctionCall_append h1 nm ag ps2
  refine ⟨htd, ?_⟩
  cases hex : t.execute ag with
  | error msg =>
      rw [runLoop_succ_exec_error htd h2 hex]
      cases hrsp : session.respond (sent ++ [SentMessage.functionResponse nm
          [("error", JValue.str msg)]]) with
      | error tm =>
          refine ⟨[], ?_⟩
          simp only [hrsp, LoopResult.dispatched]
      | ok resp' =>
          obtain ⟨rest, hr⟩ := runLoop_dispatched_extend tools session fuel resp'
            (sent ++ [SentMessage.functionResponse nm [("error", JValue.str msg)]])
            (disp ++ [(nm, ag)])
          refine ⟨rest, ?_⟩
          simp only [hrsp]
          rw [hr]
          simp
  | ok res =>
      rw [runLoop_succ_exec_ok htd h2 hex]
      cases hrsp : session.respond (sent ++ [SentMessage.functionResponse nm res]) with
      | error tm =>
          refine ⟨[], ?_⟩
          simp only [hrsp, LoopResult.dispatched]
      | ok resp' =>
          obtain ⟨rest, hr⟩ := runLoop_dispatched_extend tools session fuel resp'
            (sent ++ [SentMessage.functionResponse nm res]) (disp ++ [(nm, ag)])
          refine ⟨rest, ?_⟩
          simp only [hrsp]
          rw [hr]
          simp

/-- Witness for C5: a response carrying a text part, a call to `boom`
and a second call dispatches only `boom` first. -/
theorem single_tool_call_per_turn_witness :
    turnDispatch (mkResp ([Part.text "hi"] ++ Part.functionCall "boom" []
      :: [Part.functionCall "second" []])) = some ("boom", [])
    ∧ ∃ rest,
        (runLoop c3Tools c3Session 1 (mkResp ([Part.text "hi"] ++ Part.functionCall "boom" []
          :: [Part.functionCall "second" []])) [] []).dispatched = [] ++ ("boom", []) :: rest :=
  single_tool_call_per_turn [Part.text "hi"] "boom" [] [Part.functionCall "second" []]
    c3Tools c3Session 0 [] [] boomTool
    (fun n a hm => by simp at hm) rfl

/-- C6: a response with no tool-call request terminates `Run`
successfully with the concatenation of its text parts in part order;
two text parts `a`, `b` give `ab`, and an empty response still gives
the empty string rather than an error. -/
theorem text_only_response_terminates :
    (∀ (a : Agent) (session : Session) (prompt : String) (fuel : Nat)
        (resp : GenerateContentResponse),
      session.respond [SentMessage.text prompt] = .ok resp →
      turnDispatch resp = none →
      a.Run session prompt (fuel + 1) = .done (responseToText resp) [SentMessage.text prompt] [])
    ∧ (∀ s1 s2 : String, responseToText (mkResp [Part.text s1, Part.text s2]) = s1 ++ s2)
    ∧ responseToText (mkResp []) = "" := by
  refine ⟨?_, ?_, rfl⟩
  · intro a session prompt fuel resp hresp htd
    simp only [Agent.Run, hresp]
    exact runLoop_succ_no_call htd a.tools session fuel _ _
  · intro s1 s2
    rw [responseToText_mkResp]
    show s1 ++ (s2 ++ "") = s1 ++ s2
    rw [String.append_empty]

/-- Witness for C6: a text-only two-part response yields `ab`. -/
theorem text_only_response_terminates_witness :
    c6Agent.Run c6Session "q" 3 = .done "ab" [SentMessage.text "q"] [] := by
  have h := text_only_response_terminates.1 c6Agent c6Session "q" 2
    (mkResp [Part.text "a", Part.text "b"]) rfl rfl
  exact h.trans (by rfl)

/-- C8 counterexample: the claim "transport failures are the ONLY
fatal failures of the loop" is false — with every send succeeding,
`Run` still terminates fatally on an unregistered tool. -/
theorem send_failures_not_only_fatal_cex :
    ghostAgent.Run ghostSession "p" 3 = .failed (.unknownTool "ghost") [SentMessage.text "p"] []
    ∧ (ghostSession.respond [SentMessage.text "p"]).isOk = true :=
  ⟨rfl, rfl⟩

/-- C8 (amended): a send failure — at the initial prompt, after a
successful tool result, or after a tool-error result — makes `Run`
fail immediately with no further dispatch; and the loop's fatal
failures are exactly these three transport failures plus the
unknown-tool failure. -/
theorem send_failure_fatal :
    (∀ (a : Agent) (session : Session) (prompt : String) (fuel : Nat) (m : String),
      session.respond [SentMessage.text prompt] = .error m →
      a.Run session prompt fuel = .failed (.sendFailed m) [SentMessage.text prompt] [])
    ∧ (∀ (tools : List (String × Tool)) (session : Session) (fuel : Nat)
        (resp : GenerateContentResponse) (sent : List SentMessage) (disp : List Dispatch)
        (nm : String) (ag : Args) (t : Tool) (res : Args) (m : String),
      turnDispatch resp = some (nm, ag) →
      alistLookup tools nm = some t →
      t.execute ag = .ok res →
      session.respond (sent ++ [SentMessage.functionResponse nm res]) = .error m →
      runLoop tools session (fuel + 1) resp sent disp =
        .failed (.sendToolResultFailed m) (sent ++ [SentMessage.functionResponse nm res])
          (disp ++ [(nm, ag)]))
    ∧ (∀ (tools : List (String × Tool)) (session : Session) (fuel : Nat)
        (resp : GenerateContentResponse) (sent : List SentMessage) (disp : List Dispatch)
        (nm : String) (ag : Args) (t : Tool) (em m : String),
      turnDispatch resp = some (nm, ag) →
      alistLookup tools nm = some t →
      t.execute ag = .error em →
      session.respond (sent ++ [SentMessage.functionResponse nm
        [("error", JValue.str em)]]) = .error m →
      runLoop tools session (fuel + 1) resp sent disp =
        .failed (.sendToolErrorFailed m)
          (sent ++ [SentMessage.functionResponse nm [("error", JValue.str em)]])
          (disp ++ [(nm, ag)]))
    ∧ (∀ e : RunError,
        (∃ m, e = .sendFailed m) ∨ (∃ n, e = .unknownTool n)
        ∨ (∃ m, e = .sendToolErrorFailed m) ∨ (∃ m, e = .sendToolResultFailed m)) := by
  refine ⟨?_, ?_, ?_, ?_⟩
  · intro a session prompt fuel m hresp
    simp only [Agent.Run, hresp]
  · intro tools session fuel resp sent disp nm ag t res m htd hlk hex hrsp
    rw [runLoop_succ_exec_ok htd hlk hex]
    simp only [hrsp]
  · intro tools session fuel resp sent disp nm ag t em m htd hlk hex hrsp
    rw [runLoop_succ_exec_error htd hlk hex]
    simp only [hrsp]
  · intro e
    cases e with
    | sendFailed m => exact Or.inl ⟨m, rfl⟩
    | unknownTool n => exact Or.inr (Or.inl ⟨n, rfl⟩)
    | sendToolErrorFailed m => exact Or.inr (Or.inr (Or.inl ⟨m, rfl⟩))
    | sendToolResultFailed m => exact Or.inr (Or.inr (Or.inr ⟨m, rfl⟩))

/-- Witness for the amended C8: a failing initial send makes `Run`
fail with the wrapped transport message and an empty dispatch trace. -/
theorem send_failure_fatal_witness :
    failAgent.Run failSession "hi" 7 = .failed (.sendFailed "boom") [SentMessage.text "hi"] [] :=
  send_failure_fatal.1 failAgent failSession "hi" 7 "boom" rfl

/-- Behavior of the loop under the always-call session: every unit of
fuel performs exactly one dispatch of the registered tool `t` and one
send, and the loop never reaches a `done` or `failed` state. -/
theorem c9_loop :
    ∀ (fuel : Nat) (sent : List SentMessage) (disp : List Dispatch),
      runLoop c9Tools c9Session fuel (mkResp [Part.functionCall "t" []]) sent disp =
        .outOfFuel (sent ++ List.replicate fuel c9FrMessage)
          (disp ++ List.replicate fuel ("t", ([] : Args))) := by
  intro fuel
  induction fuel with
  | zero => intro sent disp; simp [runLoop_zero]
  | succ n ih =>
      intro sent disp
      rw [@runLoop_succ_exec_ok c9Tools (mkResp [Part.functionCall "t" []]) "t" [] c9Tool
        [("r", JValue.str "x")] rfl rfl rfl c9Session n sent disp]
      show runLoop c9Tools c9Session n (mkResp [Part.functionCall "t" []]) _ _ = _
      rw [ih]
      simp [c9FrMessage, List.replicate_succ, List.append_assoc]

/-- C9: the turn loop has no built-in bound: for every `n` there is a
model behavior — every response requesting a call to a registered
tool — under which the loop performs more than `n` dispatch/send
round trips without ever terminating. -/
theorem run_loop_unbounded :
    ∀ n : Nat, ∃ (sent : List SentMessage) (disp : List Dispatch),
      c9Agent.Run c9Session "go" (n + 1) = .outOfFuel sent disp ∧ n < disp.length := by
  intro n
  refine ⟨_, _, c9_loop (n + 1) [SentMessage.text "go"] [], ?_⟩
  simp

/-- C10: `RegisterTools` ignores every tool whose schema is nil (the
registration of a list equals the registration of its non-nil-schema
sublist), it never fails (it is a total function into `Agent`), the
registry gains a name exactly when some registered tool's schema
carries it, and a tool with schema name `s.name` is afterwards looked
up under that name. -/
theorem register_tools_skips_nil_schema :
    ∀ (a : Agent) (ts : List Tool),
      (a.RegisterTools ts).config = a.config
      ∧ a.RegisterTools (ts.filter fun t => t.schema.isSome) = a.RegisterTools ts
      ∧ (∀ nm, (alistLookup (a.RegisterTools ts).tools nm).isSome = true ↔
          (alistLookup a.tools nm).isSome = true
          ∨ ∃ t, t ∈ ts ∧ ∃ s, t.schema = some s ∧ s.name = nm)
      ∧ ∀ (t : Tool) (s : FunctionDeclaration), t.schema = some s →
          alistLookup (a.RegisterTools [t]).tools s.name = some t := by
  intro a ts
  refine ⟨rfl, ?_, ?_, ?_⟩
  · show ({ a with tools := (ts.filter fun t => t.schema.isSome).foldl registerStep a.tools }
      : Agent) = { a with tools := ts.foldl registerStep a.tools }
    rw [foldl_registerStep_filter]
  · intro nm
    exact foldl_registerStep_lookup ts a.tools nm
  · intro t s ht
    show alistLookup (List.foldl registerStep a.tools [t]) s.name = some t
    rw [List.foldl_cons, List.foldl_nil,
      show registerStep a.tools t = alistInsert a.tools s.name t from by simp [registerStep, ht]]
    exact alistLookup_insert_self _ _ _

/-- Witness for C10: a named tool lands in the registry under its
schema name; a nil-schema tool is silently skipped. -/
theorem register_tools_skips_nil_schema_witness :
    alistLookup (c10Agent.RegisterTools [c10NamedTool]).tools "n" = some c10NamedTool
    ∧ (alistLookup (c10Agent.RegisterTools [c10NilTool]).tools "n").isSome = false := by
  constructor
  · exact (register_tools_skips_nil_schema c10Agent [c10NamedTool]).2.2.2 c10NamedTool
      ⟨"n", "named", none⟩ rfl
  · have h := (register_tools_skips_nil_schema c10Agent [c10NilTool]).2.2.1 "n"
    cases hb : (alistLookup (c10Agent.RegisterTools [c10NilTool]).tools "n").isSome with
    | false => rfl
    | true =>
        rcases h.mp hb with hm | ⟨t, ht, s, hs, _⟩
        · simp [c10Agent, alistLookup] at hm
        · rcases List.mem_singleton.mp ht with rfl
          simp [c10NilTool] at hs

/-- C4: wrapping a child agent as a sub-agent tool gives (i) a schema
whose name is the child's name with each space replaced by an
underscore and no other character altered, whose description is the
child's, and whose parameters are the fixed one-field object
`(prompt : String, required)`; (ii) an executor that fails with the
invalid-argument error when the arguments carry no string `prompt`;
(iii) one that wraps a successful child run as `(result : string)`;
(iv) one that turns a failing child run into an executor error; and
(v) in the parent's loop such a child failure is recoverable — the
error is sent back as a tool-result payload and the loop continues,
with no parent-level fatal failure. -/
theorem subagent_tool_spec :
    ∀ (config : AgentConfig) (childRun : String → Except RunError String),
      (NewSubAgentTool config childRun).schema = some
        ⟨⟨config.name.data.map fun c => if c = ' ' then '_' else c⟩,
          config.description,
          some (GSchema.mk .object ""
            [("prompt", GSchema.mk .string subAgentPromptDescription [] [])] ["prompt"])⟩
      ∧ (∀ args : Args, (∀ p, alistLookup args "prompt" ≠ some (JValue.str p)) →
          (NewSubAgentTool config childRun).execute args = .error invalidPromptMessage)
      ∧ (∀ (args : Args) (p r : String),
          alistLookup args "prompt" = some (JValue.str p) → childRun p = .ok r →
          (NewSubAgentTool config childRun).execute args = .ok [("result", JValue.str r)])
      ∧ (∀ (args : Args) (p : String) (e : RunError),
          alistLookup args "prompt" = some (JValue.str p) → childRun p = .error e →
          (NewSubAgentTool config childRun).execute args =
            .error (subAgentFailedMessage config.name e))
      ∧ (∀ (tools : List (String × Tool)) (session : Session) (fuel : Nat)
          (resp : GenerateContentResponse) (sent : List SentMessage) (disp : List Dispatch)
          (nm : String) (args : Args) (p : String) (e : RunError),
          turnDispatch resp = some (nm, args) →
          alistLookup tools nm = some (NewSubAgentTool config childRun) →
          alistLookup args "prompt" = some (JValue.str p) →
          childRun p = .error e →
          runLoop tools session (fuel + 1) resp sent disp =
            match session.respond (sent ++ [SentMessage.functionResponse nm
                [("error", JValue.str (subAgentFailedMessage config.name e))]]) with
            | .error tm => .failed (.sendToolErrorFailed tm)
                (sent ++ [SentMessage.functionResponse nm
                  [("error", JValue.str (subAgentFailedMessage config.name e))]])
                (disp ++ [(nm, args)])
            | .ok resp' => runLoop tools session fuel resp'
                (sent ++ [SentMessage.functionResponse nm
                  [("error", JValue.str (subAgentFailedMessage config.name e))]])
                (disp ++ [(nm, args)])) := by
  intro config childRun
  refine ⟨?_, ?_, ?_, ?_, ?_⟩
  · simp only [NewSubAgentTool, sanitizeName_eq_map]
  · intro args h
    cases hl : alistLookup args "prompt" with
    | none => simp [NewSubAgentTool, hl]
    | some v =>
        cases v with
        | str s => exact absurd hl (h s)
        | int n => simp [NewSubAgentTool, hl]
        | boolV b => simp [NewSubAgentTool, hl]
        | null => simp [NewSubAgentTool, hl]
  · intro args p r h1 h2
    simp [NewSubAgentTool, h1, h2]
  · intro args p e h1 h2
    simp [NewSubAgentTool, h1, h2]
  · intro tools session fuel resp sent disp nm args p e h1 h2 h3 h4
    have hex : (NewSubAgentTool config childRun).execute args =
        .error (subAgentFailedMessage config.name e) := by
      simp [NewSubAgentTool, h3, h4]
    exact runLoop_succ_exec_error h1 h2 hex session fuel sent disp

/-- Witness for C4 on the `Weather Agent` child: sanitized tool name,
successful `ping`/`pong` round trip wrapped as a result object,
invalid-argument failure on missing prompt, and a failing child run
surfacing as the wrapped executor error. -/
theorem subagent_tool_spec_witness :
    ((NewSubAgentTool wConfig wChildRun).schema.map fun d => d.name) = some "Weather_Agent"
    ∧ (NewSubAgentTool wConfig wChildRun).execute [("prompt", JValue.str "ping")] =
        .ok [("result", JValue.str "pong")]
    ∧ (NewSubAgentTool wConfig wChildRun).execute [] = .error invalidPromptMessage
    ∧ (NewSubAgentTool wConfig wChildRun).execute [("prompt", JValue.str "zap")] =
        .error (subAgentFailedMessage "Weather Agent" (.sendFailed "x")) := by
  refine ⟨?_, ?_, ?_, ?_⟩
  · rw [(subagent_tool_spec wConfig wChildRun).1]
    decide
  · exact (subagent_tool_spec wConfig wChildRun).2.2.1 [("prompt", JValue.str "ping")]
      "ping" "pong" rfl rfl
  · exact (subagent_tool_spec wConfig wChildRun).2.1 [] fun p h => Option.noConfusion h
  · exact (subagent_tool_spec wConfig wChildRun).2.2.2.1 [("prompt", JValue.str "zap")]
      "zap" (.sendFailed "x") rfl rfl

end ShadowAgents
